import Mathlib

/-!
Shallow embedding of the DICOMWeb client implemented in
`imaging/ml/toolkit/hcls_imaging_ml_toolkit/dicom_web.py`.

Byte strings (Python `bytes` as well as the ASCII `str` values flowing through
the wire-protocol code) are modelled as `List Nat` of ASCII codes.  HTTP
transport is modelled by a function `Nat → Attempt` giving the outcome of the
k-th underlying request attempt (1-based); the `retrying` decorator wrapped
around `_InvokeHttpRequest` is modelled by `retryGo` below.  JSON values are
kept abstract (a type parameter `J`), since DICOM-JSON (de)serialization is
outside the client's transport logic; `json.loads` / `json.dumps` become
function parameters.
-/

namespace DicomWeb

/-- Byte strings: lists of ASCII codes. -/
abbrev Bytes := List Nat

/-- ASCII codes of a Lean string literal (used to transcribe the Python
string/bytes literals of the source). -/
def bs (s : String) : Bytes := s.data.map Char.toNat

/-- Decimal ASCII rendering of a natural number, as produced by Python's
`'%d' % n` / `'%s' % n` for a non-negative integer. -/
def natBytes (n : Nat) : Bytes := bs (toString n)

/-- Python `str.join` / the byte-level joining used when rendering headers:
`joinBytes sep [a, b, c] = a ++ sep ++ b ++ sep ++ c`. -/
def joinBytes (sep : Bytes) : List Bytes → Bytes
  | [] => []
  | [x] => x
  | x :: y :: rest => x ++ sep ++ joinBytes sep (y :: rest)

/-- Helper for leftmost splitting: prepend an element to the first fragment. -/
def consHead (x : Nat) : List Bytes → List Bytes
  | [] => [[x]]
  | y :: ys => (x :: y) :: ys

/-- Fuel-based implementation of leftmost splitting (structural recursion, so
that concrete instances evaluate inside the kernel); the fuel is instantiated
with the list length in `splitSeq` and is never exhausted. -/
def splitSeqF (sep : Bytes) : Nat → Bytes → List Bytes
  | _, [] => [[]]
  | 0, xs => [xs]
  | fuel + 1, x :: rest =>
    if sep.isPrefixOf (x :: rest) ∧ sep ≠ [] then
      [] :: splitSeqF sep fuel ((x :: rest).drop sep.length)
    else
      consHead x (splitSeqF sep fuel rest)

/-- Python `bytes.split(sep)` / `str.split(sep)` for a non-empty separator:
leftmost-first, non-overlapping splitting.  (Python raises on an empty
separator; all separators used by the source are non-empty literals.) -/
def splitSeq (sep xs : Bytes) : List Bytes := splitSeqF sep xs.length xs

theorem splitSeqF_irrel (sep : Bytes) :
    ∀ f1 f2 xs, xs.length ≤ f1 → xs.length ≤ f2 →
      splitSeqF sep f1 xs = splitSeqF sep f2 xs := by
  intro f1
  induction f1 with
  | zero =>
    intro f2 xs h1 h2
    cases xs with
    | nil => cases f2 <;> rfl
    | cons x r => simp at h1
  | succ f ih =>
    intro f2 xs h1 h2
    cases xs with
    | nil => cases f2 <;> rfl
    | cons x r =>
      cases f2 with
      | zero => simp at h2
      | succ g =>
        rw [splitSeqF, splitSeqF]
        by_cases hc : sep.isPrefixOf (x :: r) ∧ sep ≠ []
        · rw [if_pos hc, if_pos hc]
          have hsl : 1 ≤ sep.length := by
            cases hs : sep with
            | nil => exact absurd hs hc.2
            | cons a l => simp
          refine congrArg (List.cons []) ?_
          apply ih
          · simp only [List.length_drop, List.length_cons]
            simp only [List.length_cons] at h1
            omega
          · simp only [List.length_drop, List.length_cons]
            simp only [List.length_cons] at h2
            omega
        · rw [if_neg hc, if_neg hc]
          congr 1
          apply ih
          · simp only [List.length_cons] at h1
            omega
          · simp only [List.length_cons] at h2
            omega

/-- The recursion equation of `splitSeq` on a non-empty list. -/
theorem splitSeq_cons (sep : Bytes) (x : Nat) (rest : Bytes) :
    splitSeq sep (x :: rest) =
      if sep.isPrefixOf (x :: rest) ∧ sep ≠ [] then
        [] :: splitSeq sep ((x :: rest).drop sep.length)
      else consHead x (splitSeq sep rest) := by
  show splitSeqF sep (rest.length + 1) (x :: rest) = _
  rw [splitSeqF]
  by_cases hc : sep.isPrefixOf (x :: rest) ∧ sep ≠ []
  · rw [if_pos hc, if_pos hc]
    have hsl : 1 ≤ sep.length := by
      cases hs : sep with
      | nil => exact absurd hs hc.2
      | cons a l => simp
    refine congrArg (List.cons []) ?_
    show splitSeqF sep rest.length ((x :: rest).drop sep.length) =
      splitSeqF sep ((x :: rest).drop sep.length).length ((x :: rest).drop sep.length)
    apply splitSeqF_irrel
    · simp only [List.length_drop, List.length_cons]
      omega
    · exact Nat.le_refl _
  · rw [if_neg hc, if_neg hc]
    rfl

/-- First index of `sep` in a byte string (Python `bytes.find`), `none` when
absent.  `find` of the empty pattern is index 0, as in Python. -/
def findSeqIdx (sep : Bytes) : Bytes → Option Nat
  | [] => if sep = [] then some 0 else none
  | x :: rest =>
    if sep.isPrefixOf (x :: rest) then some 0
    else (findSeqIdx sep rest).map (· + 1)

/-- requests_toolbelt's `_split_on_find(content, bound)`: split at the first
occurrence of `bound`; when absent Python's `find` returns -1, giving
`(content[:-1], content[len(bound) - 1:])`. -/
def splitOnFind (content sep : Bytes) : Bytes × Bytes :=
  match findSeqIdx sep content with
  | some i => (content.take i, content.drop (i + sep.length))
  | none => (content.take (content.length - 1), content.drop (sep.length - 1))

/-- Python `str.strip()` whitespace set (space, tab, LF, CR, VT, FF). -/
def isSpaceByte (c : Nat) : Bool :=
  c = 32 || c = 9 || c = 10 || c = 13 || c = 11 || c = 12

/-- Python `str.lstrip()`. -/
def lstripWS (l : Bytes) : Bytes := l.dropWhile isSpaceByte

/-- Python `str.strip()`. -/
def pyStripWS (l : Bytes) : Bytes :=
  ((l.dropWhile isSpaceByte).reverse.dropWhile isSpaceByte).reverse

/-- Python `str.strip(c)` for a single-character set `c`. -/
def stripChar (c : Nat) (l : Bytes) : Bytes :=
  ((l.dropWhile (· == c)).reverse.dropWhile (· == c)).reverse

/-- ASCII lower-casing of one byte (Python `str.lower` on ASCII data). -/
def lowerByte (c : Nat) : Nat := if 65 ≤ c ∧ c ≤ 90 then c + 32 else c

/-- ASCII lower-casing of a byte string. -/
def lowerBytes (l : Bytes) : Bytes := l.map lowerByte

/-- An `httplib2.Response` as far as the client reads it: `resp.status` and
`resp['content-type']`. -/
structure HttpResp where
  status : Nat
  contentType : Bytes
deriving DecidableEq, Repr

/-- Outcome of one call of the undecorated `_InvokeHttpRequest` body: either a
`(response, content)` pair, or an exception escaping the transport
(connection-level failure), identified by an abstract code. -/
inductive Attempt where
  | ok (resp : HttpResp) (content : Bytes)
  | exn (e : Nat)
deriving DecidableEq, Repr

/-- Transcribes `_IsRetriableHTTPError` from dicom_web.py: the response status
is one of 429 (too many requests), 408 (REQUEST_TIMEOUT), 503
(SERVICE_UNAVAILABLE), 504 (GATEWAY_TIMEOUT). -/
def _IsRetriableHTTPError (ret_value : HttpResp × Bytes) : Bool :=
  ret_value.1.status = 429 || ret_value.1.status = 408 ||
    ret_value.1.status = 503 || ret_value.1.status = 504

/-- What the decorated `_InvokeHttpRequest` does in the end: return the final
`(response, content)` pair, raise `retrying.RetryError` wrapping the last
(still retriable) attempt, or re-raise the last attempt's exception. -/
inductive RetryResult where
  | value (resp : HttpResp) (content : Bytes)
  | retryError (resp : HttpResp) (content : Bytes)
  | reraised (e : Nat)
deriving DecidableEq, Repr

/-- A complete run of the retry loop: its outcome, the number of attempts
issued, and the sleeps (in ms) performed between attempts. -/
structure RetryRun where
  result : RetryResult
  attemptsMade : Nat
  waits : List Nat
deriving DecidableEq, Repr

/-- Wait computed by retrying's `exponential_sleep` after (1-based) attempt
`prev`, with `wait_exponential_multiplier=2000` and
`wait_exponential_max=32000`: `min(2000 * 2 ^ prev, 32000)`. -/
def expWait (prev : Nat) : Nat := min (2000 * 2 ^ prev) 32000

/-- The retry loop of the `retrying` library (`Retrying.call`), configured by
the decorator on `_InvokeHttpRequest`: `retry_on_result=_IsRetriableHTTPError`,
`stop_max_attempt_number=5`, exponential waits as in `expWait`, and the
library defaults `retry_on_exception=always_reject` (every exception is
retried) and `wrap_exception=False` (after the stop an exceptional attempt is
re-raised, a rejected result raises `RetryError`).  `remaining` counts the
attempts still allowed after the current one; `k` is the current 1-based
attempt number. -/
def retryGo (outcomes : Nat → Attempt) : Nat → Nat → List Nat → RetryRun
  | remaining, k, waits =>
    match outcomes k with
    | .ok r c =>
      if _IsRetriableHTTPError (r, c) then
        match remaining with
        | 0 => ⟨.retryError r c, k, waits⟩
        | rem + 1 => retryGo outcomes rem (k + 1) (waits ++ [expWait k])
      else ⟨.value r c, k, waits⟩
    | .exn e =>
      match remaining with
      | 0 => ⟨.reraised e, k, waits⟩
      | rem + 1 => retryGo outcomes rem (k + 1) (waits ++ [expWait k])

/-- The decorated `_InvokeHttpRequest`: at most 5 attempts total. -/
def InvokeHttpRequest (outcomes : Nat → Attempt) : RetryRun :=
  retryGo outcomes 4 1 []

/-- The exceptions an operation call can surface, as Lean error values:
`UnexpectedResponseError` (dicom_web.py), `ValueError` (StowRsJson),
`retrying.RetryError` (attempts exhausted on a retriable status),
a re-raised transport exception, the requests_toolbelt decoder exceptions,
`AttributeError` (decoder used with no boundary in the content type) and
`IndexError` (`resp[0]` on an empty QIDO result). -/
inductive PyError where
  | unexpectedResponse (msg : Bytes)
  | valueError (msg : Bytes)
  | retryError (status : Nat) (content : Bytes)
  | transportError (e : Nat)
  | improperBodyPart
  | nonMultipartContentType
  | attributeError
  | indexError
deriving DecidableEq, Repr

/-- Transcribes `DicomWebClientImpl._NotHttp2xx`: `status // 100 != 2`. -/
def _NotHttp2xx (status : Nat) : Bool := status / 100 ≠ 2

/-- Message of `QidoRs`'s `UnexpectedResponseError`:
`'QidoRs error. Response Status: %d,\nURL: %s,\nContent: %s.'`. -/
def qidoErrMsg (status : Nat) (url content : Bytes) : Bytes :=
  bs "QidoRs error. Response Status: " ++ natBytes status ++ bs ",\nURL: " ++
    url ++ bs ",\nContent: " ++ content ++ bs "."

/-- Message of `WadoRs`'s status-level `UnexpectedResponseError`. -/
def wadoStatusErrMsg (status : Nat) (url content : Bytes) : Bytes :=
  bs "WadoRs error. Response Status: " ++ natBytes status ++ bs ",\nURL: " ++
    url ++ bs ",\nContent: " ++ content ++ bs "."

/-- Message of `WadoRs`'s part-count `UnexpectedResponseError`:
`'WadoRs multipart response expected to have a single part. Actual: %d.\nURL: %s'`. -/
def wadoPartsErrMsg (numParts : Nat) (url : Bytes) : Bytes :=
  bs "WadoRs multipart response expected to have a single part. Actual: " ++
    natBytes numParts ++ bs ".\nURL: " ++ url

/-- Message of `_StowRs`'s `UnexpectedResponseError`. -/
def stowErrMsg (status : Nat) (url content : Bytes) : Bytes :=
  bs "StowRs error. Response Status: " ++ natBytes status ++ bs ",\nURL: " ++
    url ++ bs ",\nContent: " ++ content ++ bs "."

/-- Message of `DeleteRs`'s `UnexpectedResponseError`. -/
def deleteErrMsg (status : Nat) (url content : Bytes) : Bytes :=
  bs "DeleteRs error. Response Status: " ++ natBytes status ++ bs ",\nURL: " ++
    url ++ bs ",\nContent: " ++ content ++ bs "."

/-- Transcribes `DicomWebClientImpl.QidoRs`.  `jloads` models `json.loads`
restricted to the JSON-array responses this endpoint returns. -/
def QidoRs {J : Type} (outcomes : Nat → Attempt) (jloads : Bytes → List J)
    (qido_url : Bytes) : Except PyError (List J) :=
  match (InvokeHttpRequest outcomes).result with
  | .reraised e => .error (.transportError e)
  | .retryError r c => .error (.retryError r.status c)
  | .value r c =>
    if _NotHttp2xx r.status then
      .error (.unexpectedResponse (qidoErrMsg r.status qido_url c))
    else if r.status = 204 then .ok []
    else .ok (jloads c)

/-- A `urllib3.fields.RequestField`: a part name, a byte payload and the
explicit headers it was constructed with (an insertion-ordered mapping). -/
structure RequestField where
  name : Bytes
  data : Bytes
  headers : List (Bytes × Bytes)
deriving DecidableEq, Repr

/-- Python dict lookup on the insertion-ordered header mapping. -/
def headerLookup (k : Bytes) (hs : List (Bytes × Bytes)) : Option Bytes :=
  (hs.find? (fun p => p.1 == k)).map (·.2)

/-- urllib3 `RequestField.render_headers()`: the keys Content-Disposition,
Content-Type, Content-Location first (in that order, when present with a
truthy value), then the remaining headers, each rendered as `k: v`, joined
with CRLF and followed by a blank line. -/
def renderHeaders (hs : List (Bytes × Bytes)) : Bytes :=
  let sortKeys := [bs "Content-Disposition", bs "Content-Type", bs "Content-Location"]
  let firstLines := sortKeys.filterMap (fun k =>
    match headerLookup k hs with
    | some v => if v.isEmpty then none else some (k ++ bs ": " ++ v)
    | none => none)
  let restLines := hs.filterMap (fun p =>
    if sortKeys.contains p.1 || p.2.isEmpty then none
    else some (p.1 ++ bs ": " ++ p.2))
  joinBytes (bs "\r\n") (firstLines ++ restLines ++ [bs "\r\n"])

/-- One part as rendered by urllib3 `encode_multipart_formdata`:
`--boundary CRLF headers payload CRLF`. -/
def encodedPart (boundary : Bytes) (f : RequestField) : Bytes :=
  bs "--" ++ boundary ++ bs "\r\n" ++ renderHeaders f.headers ++ f.data ++ bs "\r\n"

/-- urllib3 `encode_multipart_formdata(parts, boundary)` (body component):
the rendered parts followed by the closing `--boundary--` delimiter. -/
def encodeMultipart (parts : List RequestField) (boundary : Bytes) : Bytes :=
  (parts.map (encodedPart boundary)).flatten ++ bs "--" ++ boundary ++ bs "--\r\n"

/-- The `Content-Type` header value built by `_StowRs`:
`'multipart/related; type="application/%s"; boundary="%s"'`. -/
def stowContentType (applicationType boundary : Bytes) : Bytes :=
  bs "multipart/related; type=\"application/" ++ applicationType ++
    bs "\"; boundary=\"" ++ boundary ++ bs "\""

/-- The parts built by `DicomWebClientImpl.StowRs`: one
`application/dicom`-typed part named 'placeholder' per input byte buffer. -/
def StowRsParts (dcmbytes_list : List Bytes) : List RequestField :=
  dcmbytes_list.map (fun dcmbytes =>
    ⟨bs "placeholder", dcmbytes, [(bs "Content-Type", bs "application/dicom")]⟩)

/-- Modelled from the spec (the class lives in `dicom_json.py`, which is not
under src/): a BulkData value has a `uri`, a `content_type` MIME string and a
`data` byte payload, exactly the attributes dicom_web.py reads. -/
structure DicomBulkData where
  uri : Bytes
  content_type : Bytes
  data : Bytes
deriving DecidableEq, Repr

/-- Message of the `ValueError` raised by `StowRsJson` on a malformed
BulkData content type. -/
def mimeTypeErrMsg : Bytes := bs "MIME type must be in form \"type/sub-type\""

/-- The bulkdata loop of `StowRsJson`: validates each `content_type`
(must split into exactly two '/'-separated segments, else `ValueError`) and
builds one part per BulkData, named by its uri, with Content-Location and
Content-Type headers. -/
def bulkDataParts : List DicomBulkData → Except PyError (List RequestField)
  | [] => .ok []
  | bd :: rest =>
    if (splitSeq (bs "/") bd.content_type).length ≠ 2 then
      .error (.valueError mimeTypeErrMsg)
    else
      match bulkDataParts rest with
      | .error e => .error e
      | .ok ps =>
        .ok (⟨bd.uri, bd.data,
          [(bs "Content-Location", bd.uri), (bs "Content-Type", bd.content_type)]⟩ :: ps)

/-- The full parts list built by `StowRsJson` before `_StowRs` is called: one
`application/dicom+json` part holding the serialized dict list, then the
BulkData parts. -/
def StowRsJsonParts (jsonstr : Bytes) (bulkdata_list : List DicomBulkData) :
    Except PyError (List RequestField) :=
  match bulkDataParts bulkdata_list with
  | .error e => .error e
  | .ok ps =>
    .ok (⟨bs "placeholder", jsonstr,
      [(bs "Content-Type", bs "application/dicom+json")]⟩ :: ps)

/-- An HTTP request as issued by `_InvokeHttpRequest`; operations are given a
trace of the requests they issued so that "no network call was made" is
expressible. -/
structure HttpRequest where
  url : Bytes
  method : Bytes
  body : Option Bytes
  headers : List (Bytes × Bytes)
deriving DecidableEq, Repr

/-- Transcribes `DicomWebClientImpl._StowRs`: encode the multipart body with
the (uuid4-generated, here a parameter) boundary, POST it, and require a 2xx
status.  Returns the outcome together with the issued request. -/
def _StowRs (outcomes : Nat → Attempt) (stow_url applicationType : Bytes)
    (parts : List RequestField) (boundary : Bytes) :
    Except PyError Unit × List HttpRequest :=
  let content_type := stowContentType applicationType boundary
  let body := encodeMultipart parts boundary
  let req : HttpRequest :=
    ⟨stow_url, bs "POST", some body, [(bs "content-type", content_type)]⟩
  match (InvokeHttpRequest outcomes).result with
  | .reraised e => (.error (.transportError e), [req])
  | .retryError r c => (.error (.retryError r.status c), [req])
  | .value r c =>
    if _NotHttp2xx r.status then
      (.error (.unexpectedResponse (stowErrMsg r.status stow_url c)), [req])
    else (.ok (), [req])

/-- Transcribes `DicomWebClientImpl.StowRs`. -/
def StowRs (outcomes : Nat → Attempt) (stow_url : Bytes)
    (dcmbytes_list : List Bytes) (boundary : Bytes) :
    Except PyError Unit × List HttpRequest :=
  _StowRs outcomes stow_url (bs "dicom") (StowRsParts dcmbytes_list) boundary

/-- Transcribes `DicomWebClientImpl.StowRsJson`; `jdumps` models
`json.dumps` on the abstract metadata dictionaries. -/
def StowRsJson {J : Type} (outcomes : Nat → Attempt) (stow_url : Bytes)
    (dicom_dict_list : List J) (jdumps : List J → Bytes)
    (bulkdata_list : List DicomBulkData) (boundary : Bytes) :
    Except PyError Unit × List HttpRequest :=
  match StowRsJsonParts (jdumps dicom_dict_list) bulkdata_list with
  | .error e => (.error e, [])
  | .ok parts => _StowRs outcomes stow_url (bs "dicom+json") parts boundary

/-- One decoded part of a multipart response (requests_toolbelt `BodyPart`):
its parsed headers and its byte payload. -/
structure BodyPartM where
  headers : List (Bytes × Bytes)
  content : Bytes
deriving DecidableEq, Repr

/-- requests_toolbelt's header-block parser: split on CRLF, drop empty lines,
split each line at the first `': '`. -/
def parseHeaderBlock (block : Bytes) : List (Bytes × Bytes) :=
  (splitSeq (bs "\r\n") block).foldl
    (fun acc line =>
      if line.isEmpty then acc else acc ++ [splitOnFind line (bs ": ")]) []

/-- requests_toolbelt `BodyPart.__init__`: the raw part must contain
CRLFCRLF separating the (possibly empty) header block from the payload;
otherwise `ImproperBodyPartContentException` is raised.  The header block is
left-stripped before parsing. -/
def mkBodyPart (content : Bytes) : Except PyError BodyPartM :=
  match findSeqIdx (bs "\r\n\r\n") content with
  | none => .error .improperBodyPart
  | some i =>
    let first := content.take i
    let rest := content.drop (i + 4)
    let headers := if first.isEmpty then [] else parseHeaderBlock (lstripWS first)
    .ok ⟨headers, rest⟩

/-- requests_toolbelt `MultipartDecoder._fix_first_part`: strip a leading
`--boundary` marker when present. -/
def fixFirstPart (part marker : Bytes) : Bytes :=
  if marker.isPrefixOf part then part.drop marker.length else part

/-- requests_toolbelt's `test_part` filter inside `_parse_body`. -/
def testPart (part : Bytes) : Bool :=
  part ≠ ([] : Bytes) && part ≠ bs "\r\n" && part.take 4 ≠ bs "--\r\n" &&
    part ≠ bs "--"

/-- Sequential `BodyPart` construction over the kept fragments (the decoder
materializes the tuple, so the first failing part's exception propagates). -/
def mkBodyParts (marker : Bytes) : List Bytes → Except PyError (List BodyPartM)
  | [] => .ok []
  | f :: fs =>
    match mkBodyPart (fixFirstPart f marker) with
    | .error e => .error e
    | .ok p =>
      match mkBodyParts marker fs with
      | .error e => .error e
      | .ok ps => .ok (p :: ps)

/-- requests_toolbelt `MultipartDecoder._parse_body`: split the body on
`CRLF--boundary`, drop the empty/terminal fragments, build the parts. -/
def parseBodyParts (content boundary : Bytes) : Except PyError (List BodyPartM) :=
  let marker := bs "--" ++ boundary
  mkBodyParts marker ((splitSeq (bs "\r\n" ++ marker) content).filter testPart)

/-- The boundary-attribute scan of `MultipartDecoder._find_boundary`: for each
`;`-separated item after the first, split at the first `=`; every item whose
attribute lower-cases to `boundary` overwrites the remembered value (stripped
of surrounding double quotes). -/
def findBoundaryAttr (items : List Bytes) : Option Bytes :=
  items.foldl
    (fun acc item =>
      let av := splitOnFind item (bs "=")
      if lowerBytes av.1 == bs "boundary" then some (stripChar 34 av.2) else acc)
    none

/-- requests_toolbelt `MultipartDecoder._find_boundary`: the mimetype (first
`;`-separated item) must have first `/`-segment `multipart`; the boundary
comes from the last `boundary=` attribute.  When no such attribute exists the
decoder hits an unset `self.boundary` (`AttributeError`). -/
def findBoundary (content_type : Bytes) : Except PyError Bytes :=
  let items := (splitSeq (bs ";") content_type).map pyStripWS
  let mime := items.headD []
  if lowerBytes ((splitSeq (bs "/") mime).headD []) ≠ bs "multipart" then
    .error .nonMultipartContentType
  else
    match findBoundaryAttr items.tail with
    | none => .error .attributeError
    | some b => .ok b

/-- requests_toolbelt `MultipartDecoder(content, content_type)`: extract the
boundary from the content type, then parse the body into parts. -/
def multipartDecode (content content_type : Bytes) : Except PyError (List BodyPartM) :=
  match findBoundary content_type with
  | .error e => .error e
  | .ok b => parseBodyParts content b

/-- Transcribes `DicomWebClientImpl.WadoRs`: require a 2xx status, decode the
multipart body using the response's content-type header, require exactly one
part, and return its payload. -/
def WadoRs (outcomes : Nat → Attempt) (wado_url : Bytes) : Except PyError Bytes :=
  match (InvokeHttpRequest outcomes).result with
  | .reraised e => .error (.transportError e)
  | .retryError r c => .error (.retryError r.status c)
  | .value r c =>
    if _NotHttp2xx r.status then
      .error (.unexpectedResponse (wadoStatusErrMsg r.status wado_url c))
    else
      match multipartDecode c r.contentType with
      | .error e => .error e
      | .ok parts =>
        if parts.length ≠ 1 then
          .error (.unexpectedResponse (wadoPartsErrMsg parts.length wado_url))
        else .ok ((parts.headD ⟨[], []⟩).content)

/-- Transcribes `DicomWebClientImpl.DeleteRs`. -/
def DeleteRs (outcomes : Nat → Attempt) (delete_url : Bytes) :
    Except PyError Unit :=
  match (InvokeHttpRequest outcomes).result with
  | .reraised e => .error (.transportError e)
  | .retryError r c => .error (.retryError r.status c)
  | .value r c =>
    if _NotHttp2xx r.status then
      .error (.unexpectedResponse (deleteErrMsg r.status delete_url c))
    else .ok ()

/-- Modelled from the spec: `dicom_path.DicomPathJoin` is not under src/; the
spec describes it only as a helper joining path segments into a URL string,
so it is modelled as '/'-joining.  The claims that use it treat it as an
opaque join. -/
def DicomPathJoin (parts : List Bytes) : Bytes := joinBytes (bs "/") parts

/-- The QIDO URL built by `GetStudyMetadata`:
`'%s/studies?StudyInstanceUID=%s&includefield=all' % (dicomweb_url, study_uid)`. -/
def GetStudyMetadataUrl (dicomweb_url study_uid : Bytes) : Bytes :=
  dicomweb_url ++ bs "/studies?StudyInstanceUID=" ++ study_uid ++
    bs "&includefield=all"

/-- Transcribes the module-level `GetStudyMetadata`: query through the
(abstract `DicomWebClient`) `qido` capability and return `resp[0]` — an
`IndexError` when the result list is empty. -/
def GetStudyMetadata {J : Type} (qido : Bytes → Except PyError (List J))
    (dicomweb_url study_uid : Bytes) : Except PyError J :=
  match qido (GetStudyMetadataUrl dicomweb_url study_uid) with
  | .error e => .error e
  | .ok [] => .error .indexError
  | .ok (x :: _) => .ok x

/-- The QIDO URL built by `GetInstancesMetadata`:
join(dicomweb_url, 'studies', study_uid, 'instances') then
`'%s/?%s'` with suffix `'&'.join('includefield=%s' % tag.number ...)`
followed by `'&limit=%s' % limit`. -/
def GetInstancesMetadataUrl (dicomweb_url study_uid : Bytes)
    (tag_numbers : List Bytes) (limit : Nat) : Bytes :=
  let qido_study_url :=
    DicomPathJoin [dicomweb_url, bs "studies", study_uid, bs "instances"]
  let suffix :=
    joinBytes (bs "&") (tag_numbers.map (fun t => bs "includefield=" ++ t)) ++
      (bs "&limit=" ++ natBytes limit)
  qido_study_url ++ bs "/?" ++ suffix

/-- Transcribes the module-level `GetInstancesMetadata` (tags enter only
through their `number` strings). -/
def GetInstancesMetadata {J : Type} (qido : Bytes → Except PyError (List J))
    (dicomweb_url study_uid : Bytes) (tag_numbers : List Bytes) (limit : Nat) :
    Except PyError (List J) :=
  qido (GetInstancesMetadataUrl dicomweb_url study_uid tag_numbers limit)

/-- Written from the claim's words (refinement target for the instances URL),
not from the source: the query-string tail `&includefield=<t>` repeated, then
`&limit=<n>`. -/
def claimInstancesQueryTail : List Bytes → Nat → Bytes
  | [], n => bs "&limit=" ++ natBytes n
  | t :: ts, n => bs "&includefield=" ++ t ++ claimInstancesQueryTail ts n

/-- Written from the claim's words: `includefield=<t1>&...&includefield=<tk>`
then `&limit=<n>`; for an empty tag list just `&limit=<n>` (so the full URL
degenerates to `.../?&limit=<n>`). -/
def claimInstancesQuery : List Bytes → Nat → Bytes
  | [], n => bs "&limit=" ++ natBytes n
  | t :: ts, n => bs "includefield=" ++ t ++ claimInstancesQueryTail ts n

/-! Utility lemmas about the byte-string operations. -/

theorem singleton_infix_iff (c : Nat) (l : Bytes) : [c] <:+: l ↔ c ∈ l := by
  constructor
  · rintro ⟨s, t, rfl⟩
    simp
  · intro hm
    obtain ⟨s, t, rfl⟩ := List.append_of_mem hm
    exact ⟨s, t, by simp⟩

theorem sep_not_prefixOf_cons (sep : Bytes) (x : Nat) (a b : Bytes)
    (hne : sep ≠ []) (hni : ¬ sep <:+: (x :: (a ++ sep.dropLast))) :
    sep.isPrefixOf (x :: (a ++ (sep ++ b))) = false := by
  by_contra hc
  simp only [Bool.not_eq_false] at hc
  have hpre : sep <+: x :: (a ++ (sep ++ b)) := List.isPrefixOf_iff_prefix.mp hc
  have hshape : x :: (a ++ (sep ++ b)) =
      (x :: (a ++ sep.dropLast)) ++ ([sep.getLast hne] ++ b) := by
    conv_lhs => rw [← List.dropLast_append_getLast hne]
    simp [List.append_assoc]
  have hlen : sep.length ≤ (x :: (a ++ sep.dropLast)).length := by
    have : 0 < sep.length := List.length_pos.mpr hne
    simp [List.length_dropLast]
    omega
  have htake : sep = (x :: (a ++ sep.dropLast)).take sep.length := by
    have h1 := List.prefix_iff_eq_take.mp hpre
    rw [hshape, List.take_append_of_le_length hlen] at h1
    exact h1
  have hfin : (x :: (a ++ sep.dropLast)).take sep.length <+:
      (x :: (a ++ sep.dropLast)) := List.take_prefix _ _
  rw [← htake] at hfin
  exact hni hfin.isInfix

theorem splitSeq_no_occurrence (sep xs : Bytes) (hne : sep ≠ [])
    (h : ¬ sep <:+: xs) : splitSeq sep xs = [xs] := by
  induction xs with
  | nil => rfl
  | cons x rest ih =>
    rw [splitSeq_cons]
    have hp : sep.isPrefixOf (x :: rest) = false := by
      by_contra hc
      simp only [Bool.not_eq_false] at hc
      exact h (List.isPrefixOf_iff_prefix.mp hc).isInfix
    simp only [hp, Bool.false_eq_true, false_and, if_false]
    rw [ih (fun hinf => h (List.infix_cons hinf))]
    rfl

theorem splitSeq_emit (sep a b : Bytes) (hne : sep ≠ [])
    (h : ¬ sep <:+: (a ++ sep.dropLast)) :
    splitSeq sep (a ++ (sep ++ b)) = a :: splitSeq sep b := by
  induction a with
  | nil =>
    simp only [List.nil_append]
    cases sep with
    | nil => exact absurd rfl hne
    | cons s sep' =>
      have hshape : (s :: sep') ++ b = s :: (sep' ++ b) := rfl
      rw [hshape, splitSeq_cons]
      have hp : (s :: sep').isPrefixOf (s :: (sep' ++ b)) = true := by
        rw [List.isPrefixOf_iff_prefix]
        exact List.prefix_append (s :: sep') b
      simp only [hp, true_and, ne_eq, reduceCtorEq, not_false_eq_true, if_true]
      rw [← hshape, List.drop_left]
  | cons x a' ih =>
    have h' : ¬ sep <:+: (a' ++ sep.dropLast) :=
      fun hinf => h (by simpa using List.infix_cons hinf)
    have hp := sep_not_prefixOf_cons sep x a' b hne (by simpa using h)
    have hshape : (x :: a') ++ (sep ++ b) = x :: (a' ++ (sep ++ b)) := rfl
    rw [hshape, splitSeq_cons]
    simp only [hp, Bool.false_eq_true, false_and, if_false]
    rw [ih h']
    rfl

theorem findSeqIdx_emit (sep a b : Bytes) (hne : sep ≠ [])
    (h : ¬ sep <:+: (a ++ sep.dropLast)) :
    findSeqIdx sep (a ++ (sep ++ b)) = some a.length := by
  induction a with
  | nil =>
    simp only [List.nil_append]
    cases sep with
    | nil => exact absurd rfl hne
    | cons s sep' =>
      have hshape : (s :: sep') ++ b = s :: (sep' ++ b) := rfl
      rw [hshape, findSeqIdx]
      have hp : (s :: sep').isPrefixOf (s :: (sep' ++ b)) = true := by
        rw [List.isPrefixOf_iff_prefix]
        exact List.prefix_append (s :: sep') b
      simp [hp]
  | cons x a' ih =>
    have h' : ¬ sep <:+: (a' ++ sep.dropLast) :=
      fun hinf => h (by simpa using List.infix_cons hinf)
    have hp := sep_not_prefixOf_cons sep x a' b hne (by simpa using h)
    have hshape : (x :: a') ++ (sep ++ b) = x :: (a' ++ (sep ++ b)) := rfl
    rw [hshape, findSeqIdx]
    simp [hp, ih h']

theorem splitOnFind_emit (sep a b : Bytes) (hne : sep ≠ [])
    (h : ¬ sep <:+: (a ++ sep.dropLast)) :
    splitOnFind (a ++ (sep ++ b)) sep = (a, b) := by
  have hdrop : (a ++ (sep ++ b)).drop (a.length + sep.length) = b := by
    rw [← List.append_assoc]
    have h1 := List.drop_left (a ++ sep) b
    rwa [List.length_append] at h1
  unfold splitOnFind
  rw [findSeqIdx_emit sep a b hne h]
  show (List.take a.length (a ++ (sep ++ b)),
    List.drop (a.length + sep.length) (a ++ (sep ++ b))) = (a, b)
  rw [List.take_left, hdrop]

theorem dropWhile_beq_of_not_mem (c : Nat) (l : Bytes) (h : c ∉ l) :
    l.dropWhile (· == c) = l := by
  cases l with
  | nil => rfl
  | cons a l =>
    have ha : (a == c) = false := by
      simp only [beq_eq_false_iff_ne, ne_eq]
      rintro rfl
      exact h (List.mem_cons_self a l)
    simp [List.dropWhile_cons, ha]

theorem stripChar_wrap (c : Nat) (B : Bytes) (h : c ∉ B) :
    stripChar c ([c] ++ B ++ [c]) = B := by
  unfold stripChar
  have hshape : [c] ++ B ++ [c] = c :: (B ++ [c]) := by simp
  rw [hshape, List.dropWhile_cons]
  simp only [beq_self_eq_true, if_true]
  cases B with
  | nil => simp [List.dropWhile_cons]
  | cons b0 B' =>
    have hb0 : (b0 == c) = false := by
      simp only [beq_eq_false_iff_ne, ne_eq]
      rintro rfl
      exact h (List.mem_cons_self b0 B')
    have hcb : c ∉ B'.reverse ++ [b0] := by
      simp only [List.mem_append, List.mem_reverse, List.mem_singleton]
      simp only [List.mem_cons] at h
      tauto
    rw [show (b0 :: B') ++ [c] = b0 :: (B' ++ [c]) from rfl, List.dropWhile_cons]
    simp only [hb0, Bool.false_eq_true, if_false]
    have hrev : (b0 :: (B' ++ [c])).reverse = c :: (B'.reverse ++ [b0]) := by simp
    rw [hrev, List.dropWhile_cons]
    simp only [beq_self_eq_true, if_true]
    rw [dropWhile_beq_of_not_mem c (B'.reverse ++ [b0]) hcb]
    simp

/-! Claim C1: the retry policy. -/

/-- Claim C1 (amended): over any run whose five attempts all return responses
with retriable statuses (429/408/503/504), the retry wrapper around
`_InvokeHttpRequest` issues exactly 5 attempts (hence at most 5), the waits
before attempts 2..5 are `min(2000ms * 2^(k-1), 32000ms)` = 4s, 8s, 16s, 32s
(not 2s, 4s, 8s, 16s), and after the attempts are exhausted the wrapper
raises `retrying.RetryError` wrapping the last attempt instead of returning
the last response/content pair. -/
theorem retry_policy_waits_and_exhaustion (outcomes : Nat → Attempt)
    (r1 c1 r2 c2 r3 c3 r4 c4 r5 c5 : _)
    (e1 : outcomes 1 = .ok r1 c1) (t1 : _IsRetriableHTTPError (r1, c1) = true)
    (e2 : outcomes 2 = .ok r2 c2) (t2 : _IsRetriableHTTPError (r2, c2) = true)
    (e3 : outcomes 3 = .ok r3 c3) (t3 : _IsRetriableHTTPError (r3, c3) = true)
    (e4 : outcomes 4 = .ok r4 c4) (t4 : _IsRetriableHTTPError (r4, c4) = true)
    (e5 : outcomes 5 = .ok r5 c5) (t5 : _IsRetriableHTTPError (r5, c5) = true) :
    InvokeHttpRequest outcomes =
      ⟨.retryError r5 c5, 5, [4000, 8000, 16000, 32000]⟩ := by
  have w1 : expWait 1 = 4000 := by decide
  have w2 : expWait 2 = 8000 := by decide
  have w3 : expWait 3 = 16000 := by decide
  have w4 : expWait 4 = 32000 := by decide
  simp [InvokeHttpRequest, retryGo, e1, t1, e2, t2, e3, t3, e4, t4, e5, t5,
    w1, w2, w3, w4]

/-- Witness for C1 (amended) at the constant 503 transport. -/
theorem retry_policy_waits_and_exhaustion_witness :
    InvokeHttpRequest (fun _ => .ok ⟨503, []⟩ (bs "unavailable")) =
      ⟨.retryError ⟨503, []⟩ (bs "unavailable"), 5, [4000, 8000, 16000, 32000]⟩ :=
  retry_policy_waits_and_exhaustion _ _ _ _ _ _ _ _ _ _ _
    rfl (by decide) rfl (by decide) rfl (by decide) rfl (by decide) rfl (by decide)

/-- Counterexample to claim C1 as stated: on the constant-503 transport the
wait before attempt 2 is 4000 ms, not 2000 ms (the whole wait sequence is
[4000, 8000, 16000, 32000]), and no response/content pair is returned to the
caller — the run ends in a raised `RetryError`. -/
theorem retry_policy_claim_counterexample :
    ¬ ((InvokeHttpRequest (fun _ => .ok ⟨503, []⟩ [])).waits =
        [2000, 4000, 8000, 16000] ∧
      ∃ r c, (InvokeHttpRequest (fun _ => .ok ⟨503, []⟩ [])).result =
        RetryResult.value r c) := by
  rintro ⟨hw, r, c, hv⟩
  exact absurd hw (by decide)

/-! Claim C3: connection-level transport errors and the retry policy. -/

/-- Claim C3 (amended): a connection-level exception raised by the transport
is NOT propagated immediately: the `retrying` decorator's default
`retry_on_exception` retries every exception, so a transport that fails on
every attempt is retried until the 5-attempt cap (with the same 4s/8s/16s/32s
waits) and only then is the last attempt's exception re-raised to the
caller. -/
theorem transport_exception_retried (outcomes : Nat → Attempt)
    (x1 x2 x3 x4 x5 : Nat)
    (e1 : outcomes 1 = .exn x1) (e2 : outcomes 2 = .exn x2)
    (e3 : outcomes 3 = .exn x3) (e4 : outcomes 4 = .exn x4)
    (e5 : outcomes 5 = .exn x5) :
    InvokeHttpRequest outcomes =
      ⟨.reraised x5, 5, [4000, 8000, 16000, 32000]⟩ := by
  have w1 : expWait 1 = 4000 := by decide
  have w2 : expWait 2 = 8000 := by decide
  have w3 : expWait 3 = 16000 := by decide
  have w4 : expWait 4 = 32000 := by decide
  simp [InvokeHttpRequest, retryGo, e1, e2, e3, e4, e5, w1, w2, w3, w4]

/-- Witness for C3 (amended) at a transport raising exception 7 on every
attempt. -/
theorem transport_exception_retried_witness :
    InvokeHttpRequest (fun _ => .exn 7) =
      ⟨.reraised 7, 5, [4000, 8000, 16000, 32000]⟩ :=
  transport_exception_retried _ 7 7 7 7 7 rfl rfl rfl rfl rfl

/-- Counterexample to claim C3 as stated: with a transport that raises a
connection-level exception on every attempt, the retry wrapper issues 5
attempts, not 1 — the error does not propagate immediately after the first
failing attempt (it is re-raised only after exhaustion). -/
theorem transport_exception_immediate_counterexample :
    (InvokeHttpRequest (fun _ => .exn 7)).attemptsMade = 5 ∧
      (InvokeHttpRequest (fun _ => .exn 7)).attemptsMade ≠ 1 ∧
      (InvokeHttpRequest (fun _ => .exn 7)).result = RetryResult.reraised 7 := by
  refine ⟨by decide, by decide, by decide⟩

/-! Claim C4: the uniform non-2xx failure contract of the operation layer. -/

theorem status_url_infix_template (p1 : Bytes) (status : Nat) (url content : Bytes) :
    natBytes status <:+:
      (p1 ++ natBytes status ++ bs ",\nURL: " ++ url ++ bs ",\nContent: " ++
        content ++ bs ".") ∧
    url <:+:
      (p1 ++ natBytes status ++ bs ",\nURL: " ++ url ++ bs ",\nContent: " ++
        content ++ bs ".") := by
  constructor
  · have h : p1 ++ natBytes status ++ bs ",\nURL: " ++ url ++ bs ",\nContent: " ++
        content ++ bs "." =
        p1 ++ natBytes status ++
          (bs ",\nURL: " ++ url ++ bs ",\nContent: " ++ content ++ bs ".") := by
      simp [List.append_assoc]
    rw [h]
    exact List.infix_append _ _ _
  · have h : p1 ++ natBytes status ++ bs ",\nURL: " ++ url ++ bs ",\nContent: " ++
        content ++ bs "." =
        (p1 ++ natBytes status ++ bs ",\nURL: ") ++ url ++
          (bs ",\nContent: " ++ content ++ bs ".") := by
      simp [List.append_assoc]
    rw [h]
    exact List.infix_append _ _ _

/-- Claim C4 (amended): for every response actually delivered by the retry
wrapper to the operation layer (`RetryResult.value`), a non-2xx status makes
each of the four operations fail with `UnexpectedResponseError`, whose
message contains the exact decimal status code and the request URL, and with
no other operation-level failure type.  (When a retriable non-2xx status
survives all 5 attempts, the wrapper itself raises `RetryError` instead and
no `UnexpectedResponseError` is constructed — see the counterexample.) -/
theorem non2xx_unexpected_response {J : Type} (outcomes : Nat → Attempt)
    (jloads : Bytes → List J) (url : Bytes) (r : HttpResp) (c : Bytes)
    (dcmbytes_list : List Bytes) (boundary : Bytes)
    (hres : (InvokeHttpRequest outcomes).result = .value r c)
    (h2 : _NotHttp2xx r.status = true) :
    QidoRs outcomes jloads url =
      .error (.unexpectedResponse (qidoErrMsg r.status url c)) ∧
    natBytes r.status <:+: qidoErrMsg r.status url c ∧
    url <:+: qidoErrMsg r.status url c ∧
    WadoRs outcomes url =
      .error (.unexpectedResponse (wadoStatusErrMsg r.status url c)) ∧
    natBytes r.status <:+: wadoStatusErrMsg r.status url c ∧
    url <:+: wadoStatusErrMsg r.status url c ∧
    (StowRs outcomes url dcmbytes_list boundary).1 =
      .error (.unexpectedResponse (stowErrMsg r.status url c)) ∧
    natBytes r.status <:+: stowErrMsg r.status url c ∧
    url <:+: stowErrMsg r.status url c ∧
    DeleteRs outcomes url =
      .error (.unexpectedResponse (deleteErrMsg r.status url c)) ∧
    natBytes r.status <:+: deleteErrMsg r.status url c ∧
    url <:+: deleteErrMsg r.status url c := by
  refine ⟨?_, (status_url_infix_template _ _ _ _).1, (status_url_infix_template _ _ _ _).2,
    ?_, (status_url_infix_template _ _ _ _).1, (status_url_infix_template _ _ _ _).2,
    ?_, (status_url_infix_template _ _ _ _).1, (status_url_infix_template _ _ _ _).2,
    ?_, (status_url_infix_template _ _ _ _).1, (status_url_infix_template _ _ _ _).2⟩
  · simp [QidoRs, hres, h2]
  · simp [WadoRs, hres, h2]
  · simp [StowRs, _StowRs, hres, h2]
  · simp [DeleteRs, hres, h2]

/-- Witness for C4 (amended) at a delivered 404 response. -/
theorem non2xx_unexpected_response_witness :
    QidoRs (fun _ => .ok ⟨404, []⟩ (bs "nf")) (fun _ => ([] : List Unit)) (bs "u") =
      .error (.unexpectedResponse (qidoErrMsg 404 (bs "u") (bs "nf"))) ∧
    natBytes 404 <:+: qidoErrMsg 404 (bs "u") (bs "nf") ∧
    DeleteRs (fun _ => .ok ⟨404, []⟩ (bs "nf")) (bs "u") =
      .error (.unexpectedResponse (deleteErrMsg 404 (bs "u") (bs "nf"))) := by
  have h := non2xx_unexpected_response (J := Unit) (fun _ => .ok ⟨404, []⟩ (bs "nf"))
    (fun _ => []) (bs "u") ⟨404, []⟩ (bs "nf") [] (bs "b") rfl (by decide)
  exact ⟨h.1, h.2.1, h.2.2.2.2.2.2.2.2.2.1⟩

/-- Counterexample to claim C4 as stated: a terminal 503 (non-2xx) after all
five attempts does not raise `UnexpectedResponseError` — the operation
surfaces the wrapper's `RetryError` instead. -/
theorem non2xx_retry_error_counterexample :
    _NotHttp2xx 503 = true ∧
    QidoRs (fun _ => .ok ⟨503, []⟩ (bs "busy")) (fun _ => ([] : List Unit)) (bs "u") =
      .error (.retryError 503 (bs "busy")) ∧
    ¬ ∃ msg, QidoRs (fun _ => .ok ⟨503, []⟩ (bs "busy")) (fun _ => ([] : List Unit))
      (bs "u") = .error (.unexpectedResponse msg) := by
  refine ⟨by decide, rfl, ?_⟩
  rintro ⟨msg, hmsg⟩
  rw [show QidoRs (fun _ => .ok ⟨503, []⟩ (bs "busy")) (fun _ => ([] : List Unit))
    (bs "u") = .error (.retryError 503 (bs "busy")) from rfl] at hmsg
  simp at hmsg

/-! Claim C7: QIDO success handling. -/

/-- Claim C7 (confirmed): when the retry wrapper delivers a 2xx response,
`QidoRs` returns the empty list on a 204 status (no error) and otherwise
returns `json.loads` of the body. -/
theorem qido_204_empty {J : Type} (outcomes : Nat → Attempt)
    (jloads : Bytes → List J) (url : Bytes) (r : HttpResp) (c : Bytes)
    (hres : (InvokeHttpRequest outcomes).result = .value r c)
    (h2 : _NotHttp2xx r.status = false) :
    QidoRs outcomes jloads url =
      if r.status = 204 then .ok [] else .ok (jloads c) := by
  simp [QidoRs, hres, h2]

/-- Witness for C7 at a delivered 204 response. -/
theorem qido_204_empty_witness :
    QidoRs (fun _ => .ok ⟨204, []⟩ []) (fun _ => ([] : List Unit)) (bs "u") =
      .ok [] := by
  have h := qido_204_empty (J := Unit) (fun _ => .ok ⟨204, []⟩ []) (fun _ => [])
    (bs "u") ⟨204, []⟩ [] rfl (by decide)
  simpa using h

/-! Claim C8: the GetStudyMetadata convenience query. -/

/-- Claim C8 (amended): `GetStudyMetadata` queries exactly the URL
`<dicomweb_url>/studies?StudyInstanceUID=<study_uid>&includefield=all` and
returns the first element of the result; when the result sequence is empty
the call fails with an `IndexError`-class index fault (`resp[0]` is
unguarded) — there is no distinct domain "study not found" error. -/
theorem get_study_metadata_contract {J : Type}
    (qido : Bytes → Except PyError (List J)) (dicomweb_url study_uid : Bytes)
    (res : List J)
    (hres : qido (dicomweb_url ++ bs "/studies?StudyInstanceUID=" ++ study_uid ++
      bs "&includefield=all") = .ok res) :
    GetStudyMetadata qido dicomweb_url study_uid =
      (match res with
       | [] => .error .indexError
       | x :: _ => .ok x) := by
  cases res with
  | nil =>
    show GetStudyMetadata qido dicomweb_url study_uid = .error PyError.indexError
    unfold GetStudyMetadata GetStudyMetadataUrl
    rw [hres]
  | cons x rest =>
    show GetStudyMetadata qido dicomweb_url study_uid = .ok x
    unfold GetStudyMetadata GetStudyMetadataUrl
    rw [hres]

/-- Witness for C8 (amended) at a single-element query result. -/
theorem get_study_metadata_contract_witness :
    GetStudyMetadata (fun _ => .ok [0]) (bs "d") (bs "s") = .ok 0 := by
  have h := get_study_metadata_contract (J := Nat) (fun _ => .ok [0]) (bs "d")
    (bs "s") [0] rfl
  simpa using h

/-- Counterexample to claim C8 as stated: on an empty query result the failure
is the opaque index fault (`IndexError`), not a distinct domain "study not
found" condition (the error model has no such constructor because the code
constructs no such error). -/
theorem get_study_metadata_empty_counterexample :
    GetStudyMetadata (fun _ => .ok ([] : List Unit)) (bs "d") (bs "s") =
      .error PyError.indexError := rfl

/-! Claim C10: the GetInstancesMetadata URL. -/

theorem amp_includefield_fold (Y : Bytes) :
    bs "&" ++ (bs "includefield=" ++ Y) = bs "&includefield=" ++ Y := by
  have h : bs "&" ++ bs "includefield=" = bs "&includefield=" := by decide
  rw [← List.append_assoc, h]

theorem join_includefield_eq_claim_tail (ts : List Bytes) (t : Bytes) (n : Nat) :
    joinBytes (bs "&") ((t :: ts).map (fun u => bs "includefield=" ++ u)) ++
      (bs "&limit=" ++ natBytes n) =
    bs "includefield=" ++ t ++ claimInstancesQueryTail ts n := by
  induction ts generalizing t with
  | nil => simp [joinBytes, claimInstancesQueryTail, List.append_assoc]
  | cons t' ts' ih =>
    show (bs "includefield=" ++ t ++ bs "&" ++
        joinBytes (bs "&") ((t' :: ts').map (fun u => bs "includefield=" ++ u))) ++
        (bs "&limit=" ++ natBytes n) =
      bs "includefield=" ++ t ++ claimInstancesQueryTail (t' :: ts') n
    rw [List.append_assoc, ih t']
    show bs "includefield=" ++ t ++ bs "&" ++
        (bs "includefield=" ++ (t' ++ claimInstancesQueryTail ts' n)) = _
    rw [List.append_assoc (bs "includefield=" ++ t) (bs "&"),
      amp_includefield_fold]
    simp [claimInstancesQueryTail, List.append_assoc]

/-- Claim C10 (confirmed): the instances-metadata query URL is
`join(dicomweb_url, 'studies', study_uid, 'instances')/?includefield=<t1>&
...&includefield=<tk>&limit=<limit>`; in particular with an empty tag list
the query string degenerates to `?&limit=<limit>` (leading `&`, no
includefield), and the helper queries exactly that URL. -/
theorem instances_url_format {J : Type}
    (qido : Bytes → Except PyError (List J)) (dicomweb_url study_uid : Bytes)
    (tag_numbers : List Bytes) (limit : Nat) :
    GetInstancesMetadataUrl dicomweb_url study_uid tag_numbers limit =
      DicomPathJoin [dicomweb_url, bs "studies", study_uid, bs "instances"] ++
        bs "/?" ++ claimInstancesQuery tag_numbers limit ∧
    GetInstancesMetadata qido dicomweb_url study_uid tag_numbers limit =
      qido (GetInstancesMetadataUrl dicomweb_url study_uid tag_numbers limit) := by
  refine ⟨?_, rfl⟩
  unfold GetInstancesMetadataUrl
  cases tag_numbers with
  | nil => simp [joinBytes, claimInstancesQuery]
  | cons t ts =>
    rw [List.append_assoc, List.append_assoc]
    rw [show (t :: ts).map (fun u => bs "includefield=" ++ u) =
      (t :: ts).map (fun u => bs "includefield=" ++ u) from rfl]
    rw [join_includefield_eq_claim_tail ts t limit]
    simp [claimInstancesQuery, List.append_assoc]

/-! Claim C2: the shape of the encoded Store parts. -/

theorem bulkDataParts_ok (l : List DicomBulkData)
    (hval : ∀ bd ∈ l, (splitSeq (bs "/") bd.content_type).length = 2) :
    bulkDataParts l = .ok (l.map (fun bd => ⟨bd.uri, bd.data,
      [(bs "Content-Location", bd.uri), (bs "Content-Type", bd.content_type)]⟩)) := by
  induction l with
  | nil => rfl
  | cons bd rest ih =>
    have h1 := hval bd (List.mem_cons_self bd rest)
    rw [bulkDataParts]
    simp only [h1, ne_eq, not_true_eq_false, if_false, ite_false]
    rw [ih (fun b hb => hval b (List.mem_cons_of_mem bd hb))]
    rfl

/-- Claim C2 (amended): `StowRs` with n byte buffers builds exactly n parts,
all typed `application/dicom`, whose payloads are exactly the caller's
buffers (passed through unchanged — the codec is pure); `StowRsJson` builds
exactly ONE `application/dicom+json` metadata part holding the whole
serialized dict list (not one per input instance), followed by exactly one
part per BulkData carrying that BulkData's uri, content type and unchanged
payload. -/
theorem store_parts_shape (bufs : List Bytes) (jsonstr : Bytes)
    (bulkdata : List DicomBulkData)
    (hval : ∀ bd ∈ bulkdata, (splitSeq (bs "/") bd.content_type).length = 2) :
    (StowRsParts bufs).length = bufs.length ∧
    (StowRsParts bufs).map RequestField.data = bufs ∧
    (∀ p ∈ StowRsParts bufs,
      headerLookup (bs "Content-Type") p.headers = some (bs "application/dicom")) ∧
    StowRsJsonParts jsonstr bulkdata =
      .ok (⟨bs "placeholder", jsonstr,
          [(bs "Content-Type", bs "application/dicom+json")]⟩ ::
        bulkdata.map (fun bd => ⟨bd.uri, bd.data,
          [(bs "Content-Location", bd.uri), (bs "Content-Type", bd.content_type)]⟩)) := by
  refine ⟨?_, ?_, ?_, ?_⟩
  · simp [StowRsParts]
  · simp [StowRsParts, Function.comp_def]
  · intro p hp
    simp only [StowRsParts, List.mem_map] at hp
    obtain ⟨b, _, rfl⟩ := hp
    rfl
  · rw [StowRsJsonParts, bulkDataParts_ok bulkdata hval]

/-- Witness for C2 (amended) at one raw buffer and one valid BulkData. -/
theorem store_parts_shape_witness :
    (StowRsParts [bs "AB"]).length = 1 ∧
    StowRsJsonParts (bs "[1]") [⟨bs "u1", bs "image/png", bs "D"⟩] =
      .ok [⟨bs "placeholder", bs "[1]",
          [(bs "Content-Type", bs "application/dicom+json")]⟩,
        ⟨bs "u1", bs "D",
          [(bs "Content-Location", bs "u1"), (bs "Content-Type", bs "image/png")]⟩] := by
  have h := store_parts_shape [bs "AB"] (bs "[1]")
    [⟨bs "u1", bs "image/png", bs "D"⟩] (by decide)
  exact ⟨h.1, h.2.2.2⟩

/-- Counterexample to claim C2 as stated: a StowRsJson call with two metadata
dictionaries (here `[(), ()]`, with `json.dumps` abstracted as a function
returning the byte string "x") yields exactly one application/dicom+json
part holding the whole serialized array — not two metadata parts. -/
theorem store_json_single_part_counterexample :
    StowRsJsonParts ((fun _ : List Unit => bs "x") [(), ()]) [] =
      .ok [⟨bs "placeholder", bs "x",
        [(bs "Content-Type", bs "application/dicom+json")]⟩] ∧
    ([(), ()] : List Unit).length = 2 ∧
    ([(⟨bs "placeholder", bs "x",
        [(bs "Content-Type", bs "application/dicom+json")]⟩ : RequestField)]).length ≠ 2 := by
  exact ⟨rfl, rfl, by decide⟩

/-! Claim C6: BulkData content-type validation happens before any request. -/

theorem bulkDataParts_error (l : List DicomBulkData)
    (hbad : ∃ bd ∈ l, (splitSeq (bs "/") bd.content_type).length ≠ 2) :
    bulkDataParts l = .error (.valueError mimeTypeErrMsg) := by
  induction l with
  | nil => simp at hbad
  | cons bd rest ih =>
    obtain ⟨b, hb, hlen⟩ := hbad
    rw [bulkDataParts]
    by_cases h : (splitSeq (bs "/") bd.content_type).length = 2
    · simp only [h, ne_eq, not_true_eq_false, if_false, ite_false]
      rcases List.mem_cons.mp hb with rfl | hbr
      · exact absurd h hlen
      · rw [ih ⟨b, hbr, hlen⟩]
    · simp [h]

/-- Claim C6 (confirmed): if some BulkData's content type does not split into
exactly two '/'-separated segments, `StowRsJson` fails with the `ValueError`
class error synchronously and its request trace is empty — the HTTP POST is
never invoked. -/
theorem stow_json_invalid_mime_no_request {J : Type} (outcomes : Nat → Attempt)
    (stow_url : Bytes) (dicom_dict_list : List J) (jdumps : List J → Bytes)
    (bulkdata_list : List DicomBulkData) (boundary : Bytes)
    (hbad : ∃ bd ∈ bulkdata_list, (splitSeq (bs "/") bd.content_type).length ≠ 2) :
    StowRsJson outcomes stow_url dicom_dict_list jdumps bulkdata_list boundary =
      (.error (.valueError mimeTypeErrMsg), []) := by
  simp [StowRsJson, StowRsJsonParts, bulkDataParts_error bulkdata_list hbad]

/-- Witness for C6 at a BulkData with content type "image" (no slash). -/
theorem stow_json_invalid_mime_no_request_witness :
    StowRsJson (fun _ => .ok ⟨200, []⟩ []) (bs "u") [()] (fun _ => bs "[1]")
      [⟨bs "u1", bs "image", bs "D"⟩] (bs "b") =
      (.error (.valueError mimeTypeErrMsg), []) :=
  stow_json_invalid_mime_no_request (fun _ => .ok ⟨200, []⟩ []) (bs "u") [()]
    (fun _ => bs "[1]") [⟨bs "u1", bs "image", bs "D"⟩] (bs "b")
    ⟨⟨bs "u1", bs "image", bs "D"⟩, by decide, by decide⟩

/-! Claim C5: WadoRs single-part contract. -/

/-- Claim C5 (confirmed): on a delivered 2xx response whose body decodes to
`parts`, `WadoRs` returns the single part's payload when the part count is
exactly 1 and otherwise raises `UnexpectedResponseError` whose message cites
the actual part count. -/
theorem wado_single_part_contract (outcomes : Nat → Attempt) (url : Bytes)
    (r : HttpResp) (c : Bytes) (parts : List BodyPartM)
    (hres : (InvokeHttpRequest outcomes).result = .value r c)
    (h2 : _NotHttp2xx r.status = false)
    (hdec : multipartDecode c r.contentType = .ok parts) :
    WadoRs outcomes url =
      (if parts.length = 1 then .ok ((parts.headD ⟨[], []⟩).content)
       else .error (.unexpectedResponse (wadoPartsErrMsg parts.length url))) ∧
    natBytes parts.length <:+: wadoPartsErrMsg parts.length url := by
  constructor
  · simp only [WadoRs, hres, h2, hdec, Bool.false_eq_true, if_false]
    by_cases hl : parts.length = 1
    · simp [hl]
    · simp [hl]
  · have h : wadoPartsErrMsg parts.length url =
        bs "WadoRs multipart response expected to have a single part. Actual: " ++
          natBytes parts.length ++ (bs ".\nURL: " ++ url) := by
      simp [wadoPartsErrMsg, List.append_assoc]
    rw [h]
    exact List.infix_append _ _ _

/-- Witness for C5 at a delivered two-part multipart response (part count 2
is rejected with a message citing 2). -/
theorem wado_single_part_contract_witness :
    WadoRs (fun _ => .ok ⟨200, stowContentType (bs "dicom") (bs "ab")⟩
        (encodeMultipart (StowRsParts [bs "D1", bs "D2"]) (bs "ab"))) (bs "u") =
      .error (.unexpectedResponse (wadoPartsErrMsg 2 (bs "u"))) ∧
    natBytes 2 <:+: wadoPartsErrMsg 2 (bs "u") := by
  have h := wado_single_part_contract
    (fun _ => .ok ⟨200, stowContentType (bs "dicom") (bs "ab")⟩
      (encodeMultipart (StowRsParts [bs "D1", bs "D2"]) (bs "ab"))) (bs "u")
    ⟨200, stowContentType (bs "dicom") (bs "ab")⟩
    (encodeMultipart (StowRsParts [bs "D1", bs "D2"]) (bs "ab"))
    [⟨[(bs "Content-Type", bs "application/dicom")], bs "D1"⟩,
     ⟨[(bs "Content-Type", bs "application/dicom")], bs "D2"⟩]
    rfl (by decide) rfl
  simpa using h

/-! Claim C9: multipart encode/decode round trip. -/

theorem pyStripWS_boundary_item (B : Bytes) :
    pyStripWS (bs " boundary=\"" ++ (B ++ [34])) =
      bs "boundary=\"" ++ (B ++ [34]) := by
  have h1 : bs " boundary=\"" ++ (B ++ [34]) =
      32 :: (98 :: (bs "oundary=\"" ++ (B ++ [34]))) := by
    rw [show bs " boundary=\"" = 32 :: 98 :: bs "oundary=\"" from by decide]
    simp
  have h2 : 98 :: (bs "oundary=\"" ++ (B ++ [34])) =
      (bs "boundary=\"" ++ B) ++ [34] := by
    rw [show bs "boundary=\"" = 98 :: bs "oundary=\"" from by decide]
    simp
  unfold pyStripWS
  rw [h1, List.dropWhile_cons, if_pos (show isSpaceByte 32 = true from by decide),
    List.dropWhile_cons, if_neg (show ¬ isSpaceByte 98 = true from by decide),
    h2, List.reverse_append]
  simp only [List.reverse_cons, List.reverse_nil, List.nil_append,
    List.singleton_append]
  rw [List.dropWhile_cons, if_neg (show ¬ isSpaceByte 34 = true from by decide)]
  simp [List.append_assoc]

theorem findBoundary_stow (B : Bytes) (h34 : (34 : Nat) ∉ B)
    (h59 : (59 : Nat) ∉ B) :
    findBoundary (stowContentType (bs "dicom") B) = .ok B := by
  have hshape : stowContentType (bs "dicom") B =
      bs "multipart/related" ++ (bs ";" ++ (bs " type=\"application/dicom\"" ++
        (bs ";" ++ (bs " boundary=\"" ++ (B ++ [34]))))) := by
    unfold stowContentType
    rw [show (bs "\"" : Bytes) = [34] from by decide]
    simp only [← List.append_assoc]
    refine congrArg (fun z => z ++ [34]) ?_
    refine congrArg (fun z => z ++ B) ?_
    decide
  have hni3 : ¬ (bs ";") <:+: (bs " boundary=\"" ++ (B ++ [34])) := by
    rw [show bs ";" = [(59 : Nat)] from rfl, singleton_infix_iff]
    simp only [List.mem_append]
    push_neg
    exact ⟨by decide, h59, by decide⟩
  have hsplit : splitSeq (bs ";") (stowContentType (bs "dicom") B) =
      [bs "multipart/related", bs " type=\"application/dicom\"",
        bs " boundary=\"" ++ (B ++ [34])] := by
    rw [hshape]
    rw [splitSeq_emit (bs ";") (bs "multipart/related") _ (by decide) (by decide)]
    rw [splitSeq_emit (bs ";") (bs " type=\"application/dicom\"") _ (by decide)
      (by decide)]
    rw [splitSeq_no_occurrence (bs ";") _ (by decide) hni3]
  have hsp : splitOnFind (bs "boundary=\"" ++ (B ++ [34])) (bs "=") =
      (bs "boundary", [34] ++ (B ++ [34])) := by
    have hshape2 : bs "boundary=\"" ++ (B ++ [34]) =
        bs "boundary" ++ (bs "=" ++ ([34] ++ (B ++ [34]))) := by
      rw [show bs "boundary=\"" = bs "boundary" ++ (bs "=" ++ [34]) from by decide]
      simp
    rw [hshape2]
    exact splitOnFind_emit (bs "=") (bs "boundary") _ (by decide) (by decide)
  have hstrip : stripChar 34 ([34] ++ (B ++ [34])) = B := by
    rw [← List.append_assoc]
    exact stripChar_wrap 34 B h34
  have hattr : findBoundaryAttr [bs "type=\"application/dicom\"",
      bs "boundary=\"" ++ (B ++ [34])] = some B := by
    unfold findBoundaryAttr
    simp only [List.foldl_cons, List.foldl_nil]
    rw [if_neg (show ¬ ((lowerBytes (splitOnFind (bs "type=\"application/dicom\"")
      (bs "=")).1 == bs "boundary") = true) from by decide)]
    rw [hsp]
    dsimp only
    rw [if_pos (show (lowerBytes (bs "boundary") == bs "boundary") = true from
      by decide)]
    rw [hstrip]
  unfold findBoundary
  rw [hsplit]
  simp only [List.map_cons, List.map_nil, pyStripWS_boundary_item B,
    show pyStripWS (bs "multipart/related") = bs "multipart/related" from by decide,
    show pyStripWS (bs " type=\"application/dicom\"") =
      bs "type=\"application/dicom\"" from by decide,
    List.headD_cons, List.tail_cons]
  rw [if_neg (show ¬ (lowerBytes ((splitSeq (bs "/")
    (bs "multipart/related")).headD []) ≠ bs "multipart") from by decide)]
  rw [hattr]


theorem app_left_congr (x : Bytes) {y z : Bytes} (h : y = z) : x ++ y = x ++ z :=
  congrArg _ h

theorem app_right_congr {y z : Bytes} (h : y = z) (x : Bytes) : y ++ x = z ++ x :=
  congrArg (fun w => w ++ x) h

theorem testPart_eq_true_iff (p : Bytes) :
    testPart p = true ↔
      (p ≠ [] ∧ p ≠ bs "\r\n" ∧ p.take 4 ≠ bs "--\r\n" ∧ p ≠ bs "--") := by
  simp [testPart, and_assoc]

theorem encodeStow_single_shape (data B : Bytes) :
    encodeMultipart (StowRsParts [data]) B =
      (bs "--" ++ B ++ bs "\r\n" ++ bs "Content-Type: application/dicom\r\n\r\n" ++
        data) ++ ((bs "\r\n--" ++ B) ++ bs "--\r\n") := by
  unfold encodeMultipart StowRsParts encodedPart
  simp only [List.map_cons, List.map_nil, List.flatten_cons, List.flatten_nil,
    List.append_nil]
  rw [show renderHeaders [(bs "Content-Type", bs "application/dicom")] =
    bs "Content-Type: application/dicom\r\n\r\n" from by decide]
  simp only [List.append_assoc]
  refine app_left_congr (bs "--") ?_
  refine app_left_congr B ?_
  refine app_left_congr (bs "\r\n") ?_
  refine app_left_congr (bs "Content-Type: application/dicom\r\n\r\n") ?_
  refine app_left_congr data ?_
  rw [← List.append_assoc]
  exact app_right_congr (by decide) _

theorem parseBodyParts_single (data B : Bytes) (hB : B ≠ [])
    (h13 : (13 : Nat) ∉ B)
    (hdelim : ¬ (bs "\r\n--" ++ B) <:+:
      ((bs "--" ++ B ++ bs "\r\n" ++ bs "Content-Type: application/dicom\r\n\r\n" ++
        data) ++ (bs "\r\n--" ++ B).dropLast)) :
    parseBodyParts (encodeMultipart (StowRsParts [data]) B) B =
      .ok [⟨[(bs "Content-Type", bs "application/dicom")], data⟩] := by
  have hsep : bs "\r\n" ++ (bs "--" ++ B) = bs "\r\n--" ++ B := by
    rw [← List.append_assoc]
    exact app_right_congr (by decide) B
  have hsep_ne : (bs "\r\n--" ++ B) ≠ [] := by
    intro h
    rw [List.append_eq_nil] at h
    exact absurd h.1 (by decide)
  have hBlen : 0 < B.length := List.length_pos.mpr hB
  have hni_tail : ¬ (bs "\r\n--" ++ B) <:+: (bs "--\r\n") := by
    intro hinf
    have hle := hinf.length_le
    simp only [List.length_append] at hle
    have h4 : (bs "\r\n--").length = 4 := by decide
    have h4' : (bs "--\r\n" : Bytes).length = 4 := by decide
    omega
  have hsplit : splitSeq (bs "\r\n--" ++ B) (encodeMultipart (StowRsParts [data]) B) =
      [bs "--" ++ B ++ bs "\r\n" ++ bs "Content-Type: application/dicom\r\n\r\n" ++
        data, bs "--\r\n"] := by
    rw [encodeStow_single_shape data B]
    rw [splitSeq_emit (bs "\r\n--" ++ B) _ _ hsep_ne hdelim]
    rw [splitSeq_no_occurrence (bs "\r\n--" ++ B) _ hsep_ne hni_tail]
  have hAcons : bs "--" ++ B ++ bs "\r\n" ++
      bs "Content-Type: application/dicom\r\n\r\n" ++ data =
      45 :: 45 :: (B ++ (bs "\r\n" ++
        (bs "Content-Type: application/dicom\r\n\r\n" ++ data))) := by
    simp only [List.append_assoc]
    rw [show (bs "--" : Bytes) = [45, 45] from rfl]
    simp
  have htA : testPart (bs "--" ++ B ++ bs "\r\n" ++
      bs "Content-Type: application/dicom\r\n\r\n" ++ data) = true := by
    rw [hAcons, testPart_eq_true_iff]
    cases B with
    | nil => exact absurd rfl hB
    | cons b0 B' =>
      have hb0 : b0 ≠ 13 := fun he => (List.ne_of_not_mem_cons h13) he.symm
      refine ⟨by simp, ?_, ?_, ?_⟩
      · rw [show (bs "\r\n" : Bytes) = [13, 10] from rfl]
        simp
      · rw [show (bs "--\r\n" : Bytes) = [45, 45, 13, 10] from rfl]
        intro hteq
        simp only [List.take_succ_cons, List.cons_append] at hteq
        simp only [List.cons.injEq] at hteq
        exact hb0 hteq.2.2.1
      · rw [show (bs "--" : Bytes) = [45, 45] from rfl]
        simp
  have htTail : testPart (bs "--\r\n") = false := by decide
  have hfix : fixFirstPart (bs "--" ++ B ++ bs "\r\n" ++
      bs "Content-Type: application/dicom\r\n\r\n" ++ data) (bs "--" ++ B) =
      bs "\r\n" ++ (bs "Content-Type: application/dicom\r\n\r\n" ++ data) := by
    have hApre : bs "--" ++ B ++ bs "\r\n" ++
        bs "Content-Type: application/dicom\r\n\r\n" ++ data =
        (bs "--" ++ B) ++ (bs "\r\n" ++
          (bs "Content-Type: application/dicom\r\n\r\n" ++ data)) := by
      simp [List.append_assoc]
    unfold fixFirstPart
    rw [hApre, if_pos (List.isPrefixOf_iff_prefix.mpr (List.prefix_append _ _))]
    exact List.drop_left _ _
  have hcontent : bs "\r\n" ++ (bs "Content-Type: application/dicom\r\n\r\n" ++ data) =
      bs "\r\nContent-Type: application/dicom" ++ (bs "\r\n\r\n" ++ data) := by
    rw [← List.append_assoc, ← List.append_assoc]
    exact app_right_congr (by decide) data
  have hmk : mkBodyPart (bs "\r\n" ++
      (bs "Content-Type: application/dicom\r\n\r\n" ++ data)) =
      .ok ⟨[(bs "Content-Type", bs "application/dicom")], data⟩ := by
    unfold mkBodyPart
    rw [hcontent, findSeqIdx_emit (bs "\r\n\r\n") (bs "\r\nContent-Type: application/dicom")
      data (by decide) (by decide)]
    have htake : (bs "\r\nContent-Type: application/dicom" ++ (bs "\r\n\r\n" ++ data)).take
        (bs "\r\nContent-Type: application/dicom" : Bytes).length =
        bs "\r\nContent-Type: application/dicom" := List.take_left _ _
    have hdrop : (bs "\r\nContent-Type: application/dicom" ++ (bs "\r\n\r\n" ++ data)).drop
        ((bs "\r\nContent-Type: application/dicom" : Bytes).length + 4) = data := by
      rw [← List.append_assoc]
      have h1 := List.drop_left (bs "\r\nContent-Type: application/dicom" ++ bs "\r\n\r\n") data
      rw [List.length_append] at h1
      rw [show ((bs "\r\n\r\n" : Bytes)).length = 4 from rfl] at h1
      exact h1
    dsimp only
    rw [htake, hdrop]
    exact congrArg (fun h => (Except.ok ⟨h, data⟩ : Except PyError BodyPartM)) (by decide)
  unfold parseBodyParts
  show mkBodyParts (bs "--" ++ B) (List.filter testPart
    (splitSeq (bs "\r\n" ++ (bs "--" ++ B)) (encodeMultipart (StowRsParts [data]) B))) = _
  rw [hsep, hsplit]
  rw [show List.filter testPart [bs "--" ++ B ++ bs "\r\n" ++
      bs "Content-Type: application/dicom\r\n\r\n" ++ data, bs "--\r\n"] =
    [bs "--" ++ B ++ bs "\r\n" ++ bs "Content-Type: application/dicom\r\n\r\n" ++ data]
    from by
      rw [List.filter_cons_of_pos htA, List.filter_cons_of_neg (by simp [htTail]),
        List.filter_nil]]
  unfold mkBodyParts
  rw [hfix, hmk]
  rfl

/-- Claim C9 (amended): encoding a single binary part with boundary `B` (as
`StowRs`/`_StowRs` do) and decoding the resulting body with the declared
Content-Type header (as `WadoRs` does) yields exactly one part whose payload
equals the original buffer and whose parsed Content-Type header equals the
encoded `application/dicom` — provided the boundary is non-empty and free of
CR, `"` and `;` (true of every uuid4 boundary) and the delimiter sequence
`CRLF--<boundary>` does not occur inside the encoded part (headers, payload,
or the junction with the final delimiter).  Without the last proviso the
claim fails: see the counterexample. -/
theorem multipart_roundtrip (data B : Bytes) (hB : B ≠ [])
    (h13 : (13 : Nat) ∉ B) (h34 : (34 : Nat) ∉ B) (h59 : (59 : Nat) ∉ B)
    (hdelim : ¬ (bs "\r\n--" ++ B) <:+:
      ((bs "--" ++ B ++ bs "\r\n" ++ bs "Content-Type: application/dicom\r\n\r\n" ++
        data) ++ (bs "\r\n--" ++ B).dropLast)) :
    multipartDecode (encodeMultipart (StowRsParts [data]) B)
      (stowContentType (bs "dicom") B) =
      .ok [⟨[(bs "Content-Type", bs "application/dicom")], data⟩] := by
  unfold multipartDecode
  rw [findBoundary_stow B h34 h59]
  exact parseBodyParts_single data B hB h13 hdelim

set_option maxRecDepth 10000 in
/-- Witness for C9 (amended) at buffer "XY" and boundary "ab". -/
theorem multipart_roundtrip_witness :
    multipartDecode (encodeMultipart (StowRsParts [bs "XY"]) (bs "ab"))
      (stowContentType (bs "dicom") (bs "ab")) =
      .ok [⟨[(bs "Content-Type", bs "application/dicom")], bs "XY"⟩] :=
  multipart_roundtrip (bs "XY") (bs "ab") (by decide) (by decide) (by decide)
    (by decide) (by decide)

set_option maxRecDepth 10000 in
/-- Counterexample to claim C9 as stated (universally over payloads): with the
valid uuid4 boundary `00000000-0000-4000-8000-000000000000` and a payload that
contains the delimiter `CRLF--<boundary>`, the decode of the encode yields one
part whose payload is empty — not the original buffer. -/
theorem multipart_roundtrip_counterexample :
    multipartDecode
      (encodeMultipart
        (StowRsParts [bs "\r\n--00000000-0000-4000-8000-000000000000"])
        (bs "00000000-0000-4000-8000-000000000000"))
      (stowContentType (bs "dicom") (bs "00000000-0000-4000-8000-000000000000")) =
      .ok [⟨[(bs "Content-Type", bs "application/dicom")], []⟩] ∧
    ([] : Bytes) ≠ bs "\r\n--00000000-0000-4000-8000-000000000000" := by
  exact ⟨rfl, by decide⟩

end DicomWeb
